import Mathlib

/-!
Verification development for the Kaizen executive-summary generator
(`src/app.py`).  The pipeline helpers of the script are embedded as
executable Lean definitions over a shallow model of Python values,
python-pptx slide decks and python-docx documents, and the behavioural
contracts of the specification are settled as theorems about those
definitions.
-/

set_option maxRecDepth 4000

/-- Characters treated as whitespace by Python's `str.strip()` and by the
regex class `\s` (ASCII subset, which covers every string this program
manipulates). -/
def pyIsSpace (c : Char) : Bool :=
  c == ' ' || c == '\t' || c == '\n' || c == '\r' || c == '\x0b' || c == '\x0c'

/-- Python `str.strip()`: drop leading and trailing whitespace. -/
def pyStrip (s : String) : String :=
  String.mk (((s.data.dropWhile pyIsSpace).reverse.dropWhile pyIsSpace).reverse)

/-- Shallow model of the Python values flowing through the script:
`None`, booleans, integers, strings, lists and string-keyed dicts
(the shapes produced by `json.loads` and consumed by the template
filler).  Fractional JSON numbers are outside the modelled subset; no
contract in this development touches numbers at all. -/
inductive PyVal where
  | vnone : PyVal
  | vbool : Bool → PyVal
  | vnum : Int → PyVal
  | vstr : String → PyVal
  | vlist : List PyVal → PyVal
  | vdict : List (String × PyVal) → PyVal

/-- Python truthiness (`bool(x)`) for the modelled values. -/
def pyTruthy : PyVal → Bool
  | .vnone => false
  | .vbool b => b
  | .vnum n => n != 0
  | .vstr s => s != ""
  | .vlist xs => !xs.isEmpty
  | .vdict kvs => !kvs.isEmpty

mutual

/-- Python `repr(x)` for the modelled values (single-quoted strings,
without escape sequences: no contract in this development depends on the
repr of a string containing quotes or control characters). -/
def pyRepr : PyVal → String
  | .vnone => "None"
  | .vbool true => "True"
  | .vbool false => "False"
  | .vnum n => toString n
  | .vstr s => "\x27" ++ s ++ "\x27"
  | .vlist xs => "[" ++ pyReprElems xs ++ "]"
  | .vdict kvs => "\x7b" ++ pyReprKVs kvs ++ "\x7d"

/-- Comma-separated reprs of the elements of a Python list. -/
def pyReprElems : List PyVal → String
  | [] => ""
  | [x] => pyRepr x
  | x :: xs => pyRepr x ++ ", " ++ pyReprElems xs

/-- Comma-separated `key: value` reprs of the entries of a Python dict. -/
def pyReprKVs : List (String × PyVal) → String
  | [] => ""
  | [(k, v)] => "\x27" ++ k ++ "\x27: " ++ pyRepr v
  | (k, v) :: kvs => "\x27" ++ k ++ "\x27: " ++ pyRepr v ++ ", " ++ pyReprKVs kvs

end

/-- Python `str(x)` for the modelled values; on containers it coincides
with `repr`. -/
def pyToStr : PyVal → String
  | .vstr s => s
  | v => pyRepr v

/-- A Python dict with string keys, as produced by `json.loads` for a
JSON object.  Keys are unique (insertion preserves the first position of
a key, as CPython does). -/
def PyDict : Type := List (String × PyVal)

/-- `d[key]` lookup returning `none` when the key is absent
(`dict.get(key)` without a default). -/
def dict_get (d : PyDict) (key : String) : Option PyVal :=
  match List.find? (fun kv => kv.1 == key) d with
  | some kv => some kv.2
  | none => none

/-- `_safe_get` from `src/app.py`: `v = d.get(key, default)`, then
`v if v is not None else default`. -/
def _safe_get (d : PyDict) (key : String) (default : PyVal) : PyVal :=
  match dict_get d key with
  | none => default
  | some .vnone => default
  | some v => v

/-- A python-pptx shape as seen by `extract_slide_text`: `text` is `none`
when the shape has no `text` attribute. -/
structure Shape where
  text : Option String
deriving DecidableEq

/-- The per-slide loop body of `extract_slide_text`: collect the stripped
text of every shape that exposes non-empty text, in shape order. -/
def slide_parts (shapes : List Shape) : List String :=
  shapes.foldl
    (fun parts shape =>
      match shape.text with
      | none => parts
      | some t0 =>
          if t0 == "" then parts
          else
            let t := pyStrip t0
            if t == "" then parts else parts ++ [t])
    []

/-- `extract_slide_text` from `src/app.py`: label each contributing
slide `"Slide n:"` (1-indexed), join its shape texts with newlines, and
join the slide blocks with blank lines. -/
def extract_slide_text (slides : List (List Shape)) : String :=
  let out :=
    slides.enum.foldl
      (fun out p =>
        let parts := slide_parts p.2
        if parts == [] then out
        else out ++ ["Slide " ++ toString (p.1 + 1) ++ ":\n" ++ String.intercalate "\n" parts])
      []
  String.intercalate "\n\n" out

/-- The literal marker `truncate_text` appends after the cut. -/
def TRUNCATION_MARKER : List Char := ("\n\n[TRUNCATED FOR COST CONTROL]").data

/-- `truncate_text` from `src/app.py`, over the character list of the
text (Python slicing is per character). -/
def truncate_text (text : List Char) (max_chars : Nat) : List Char :=
  if text.length ≤ max_chars then text else text.take max_chars ++ TRUNCATION_MARKER

/-- The opening-brace character (written via its code point so that no
brace appears inside a literal). -/
def lbrace : Char := Char.ofNat 123

/-- The closing-brace character. -/
def rbrace : Char := Char.ofNat 125

/-- JSON inter-token whitespace (RFC 8259: space, tab, LF, CR), as
accepted by Python's `json.loads`. -/
def jsonWs (c : Char) : Bool :=
  c == ' ' || c == '\t' || c == '\n' || c == '\r'

/-- Value of one hexadecimal digit, for `\u` escapes. -/
def hexDigitVal (c : Char) : Option Nat :=
  if '0' ≤ c ∧ c ≤ '9' then some (c.toNat - 48)
  else if 'a' ≤ c ∧ c ≤ 'f' then some (c.toNat - 87)
  else if 'A' ≤ c ∧ c ≤ 'F' then some (c.toNat - 55)
  else none

/-- Scan the remainder of a JSON string literal (the opening quote is
already consumed): handle the standard escapes and `\uXXXX` (surrogate
pairs are outside the modelled subset), and reject raw control
characters as `json.loads` does in its default strict mode. -/
def jsonStringRest (fuel : Nat) (cs : List Char) (acc : List Char) : Option (String × List Char) :=
  match fuel with
  | 0 => none
  | fuel + 1 =>
    match cs with
    | [] => none
    | c :: rest =>
      if c = '\"' then some (String.mk acc.reverse, rest)
      else if c = '\\' then
        match rest with
        | [] => none
        | e :: rest2 =>
          if e = '\"' then jsonStringRest fuel rest2 ('\"' :: acc)
          else if e = '\\' then jsonStringRest fuel rest2 ('\\' :: acc)
          else if e = '/' then jsonStringRest fuel rest2 ('/' :: acc)
          else if e = 'b' then jsonStringRest fuel rest2 ('\x08' :: acc)
          else if e = 'f' then jsonStringRest fuel rest2 ('\x0c' :: acc)
          else if e = 'n' then jsonStringRest fuel rest2 ('\n' :: acc)
          else if e = 'r' then jsonStringRest fuel rest2 ('\r' :: acc)
          else if e = 't' then jsonStringRest fuel rest2 ('\t' :: acc)
          else if e = 'u' then
            match rest2 with
            | h1 :: h2 :: h3 :: h4 :: rest3 =>
              match hexDigitVal h1, hexDigitVal h2, hexDigitVal h3, hexDigitVal h4 with
              | some a, some b, some c2, some d =>
                  jsonStringRest fuel rest3 (Char.ofNat (((a * 16 + b) * 16 + c2) * 16 + d) :: acc)
              | _, _, _, _ => none
            | _ => none
          else none
      else if c.toNat < 32 then none
      else jsonStringRest fuel rest (c :: acc)

/-- Parse a JSON number.  Only integers are in the modelled subset: a
fraction or exponent makes the parse fail here, and no contract in this
development involves numbers. -/
def jsonNumber (cs : List Char) : Option (PyVal × List Char) :=
  let negAndRest : Bool × List Char :=
    match cs with
    | c :: r => if c = '-' then (true, r) else (false, cs)
    | [] => (false, cs)
  let digits := negAndRest.2.takeWhile Char.isDigit
  let rest := negAndRest.2.dropWhile Char.isDigit
  if digits.isEmpty then none
  else
    let n : Nat := digits.foldl (fun n c => n * 10 + (c.toNat - 48)) 0
    let v : Int := if negAndRest.1 then -(n : Int) else (n : Int)
    match rest with
    | c :: _ => if c = '.' ∨ c = 'e' ∨ c = 'E' then none else some (.vnum v, rest)
    | [] => some (.vnum v, rest)

/-- Insert a key into a Python dict: an existing key keeps its original
position and gets the new value (CPython semantics for duplicate keys in
a JSON object: the last value wins). -/
def dictInsert (kvs : List (String × PyVal)) (key : String) (v : PyVal) :
    List (String × PyVal) :=
  if kvs.any (fun kv => kv.1 == key) then
    kvs.map (fun kv => if kv.1 == key then (kv.1, v) else kv)
  else kvs ++ [(key, v)]

mutual

/-- Parse one JSON value starting at `cs` (leading whitespace allowed),
returning the value and the unconsumed remainder.  `fuel` only bounds
recursion depth; `json_loads` supplies more than enough. -/
def jsonValue (fuel : Nat) (cs : List Char) : Option (PyVal × List Char) :=
  match fuel with
  | 0 => none
  | fuel + 1 =>
    match cs.dropWhile jsonWs with
    | [] => none
    | c :: rest =>
      if c = lbrace then jsonObjectBody fuel rest
      else if c = '[' then jsonArrayBody fuel rest
      else if c = '\"' then
        match jsonStringRest (rest.length + 1) rest [] with
        | some (s, rest2) => some (.vstr s, rest2)
        | none => none
      else if c = 't' then
        match rest with
        | 'r' :: 'u' :: 'e' :: r => some (.vbool true, r)
        | _ => none
      else if c = 'f' then
        match rest with
        | 'a' :: 'l' :: 's' :: 'e' :: r => some (.vbool false, r)
        | _ => none
      else if c = 'n' then
        match rest with
        | 'u' :: 'l' :: 'l' :: r => some (.vnone, r)
        | _ => none
      else jsonNumber (c :: rest)

/-- Parse the body of a JSON object (the opening brace is consumed). -/
def jsonObjectBody (fuel : Nat) (cs : List Char) : Option (PyVal × List Char) :=
  match fuel with
  | 0 => none
  | fuel + 1 =>
    match cs.dropWhile jsonWs with
    | [] => none
    | c :: rest => if c = rbrace then some (.vdict [], rest) else jsonMembers fuel [] cs

/-- Parse the members of a non-empty JSON object. -/
def jsonMembers (fuel : Nat) (acc : List (String × PyVal)) (cs : List Char) :
    Option (PyVal × List Char) :=
  match fuel with
  | 0 => none
  | fuel + 1 =>
    match cs.dropWhile jsonWs with
    | [] => none
    | c :: rest =>
      if c = '\"' then
        match jsonStringRest (rest.length + 1) rest [] with
        | none => none
        | some (key, rest2) =>
          match rest2.dropWhile jsonWs with
          | ':' :: rest3 =>
            match jsonValue fuel rest3 with
            | none => none
            | some (v, rest4) =>
              match rest4.dropWhile jsonWs with
              | ',' :: rest5 => jsonMembers fuel (dictInsert acc key v) rest5
              | c2 :: rest5 =>
                  if c2 = rbrace then some (.vdict (dictInsert acc key v), rest5) else none
              | [] => none
          | _ => none
      else none

/-- Parse the body of a JSON array (the opening bracket is consumed). -/
def jsonArrayBody (fuel : Nat) (cs : List Char) : Option (PyVal × List Char) :=
  match fuel with
  | 0 => none
  | fuel + 1 =>
    match cs.dropWhile jsonWs with
    | [] => none
    | c :: rest => if c = ']' then some (.vlist [], rest) else jsonItems fuel [] cs

/-- Parse the items of a non-empty JSON array. -/
def jsonItems (fuel : Nat) (acc : List PyVal) (cs : List Char) :
    Option (PyVal × List Char) :=
  match fuel with
  | 0 => none
  | fuel + 1 =>
    match jsonValue fuel cs with
    | none => none
    | some (v, rest) =>
      match rest.dropWhile jsonWs with
      | ',' :: rest2 => jsonItems fuel (acc ++ [v]) rest2
      | ']' :: rest2 => some (.vlist (acc ++ [v]), rest2)
      | _ => none

end

/-- `json.loads` for the modelled subset: parse one value and require
only whitespace after it. -/
def json_loads (s : String) : Option PyVal :=
  match jsonValue (3 * s.data.length + 16) s.data with
  | some (v, rest) => if (rest.dropWhile jsonWs).isEmpty then some v else none
  | none => none

/-- The fallback extraction `re.search(r"..", text, flags=re.S)` used in
`generate_structured_sections` with the greedy brace pattern: the match,
when it exists, runs from the first opening brace to the last closing
brace that follows it. -/
def extract_brace_span (s : String) : Option String :=
  match s.data.findIdx? (fun c => c == lbrace) with
  | none => none
  | some i =>
    match s.data.reverse.findIdx? (fun c => c == rbrace) with
    | none => none
    | some jr =>
      let j := s.data.length - 1 - jr
      if i < j then some (String.mk ((s.data.drop i).take (j - i + 1))) else none

/-- The response-parsing tail of `generate_structured_sections`
(`src/app.py` lines 123-132): strip the raw response, attempt a strict
`json.loads`, on failure extract the greedy brace span and parse that,
and fail with `ValueError("Model did not return JSON.")` when no span
exists.  The network call that produces `output_text` is an external
collaborator and is not modelled; no retry exists on any path. -/
def generate_structured_sections_parse (output_text : String) : Except String PyVal :=
  let text := pyStrip output_text
  match json_loads text with
  | some v => .ok v
  | none =>
    match extract_brace_span text with
    | none => .error "Model did not return JSON."
    | some s =>
      match json_loads s with
      | some v => .ok v
      | none => .error "json.JSONDecodeError"

/-- A python-docx paragraph, abstracted to its raw text and its
paragraph-style reference (run-level formatting is below this
abstraction; `style` names the style object attached to the
paragraph). -/
structure Para where
  text : String
  style : String
deriving DecidableEq

/-- A python-docx document as `fill_placeholders_in_template` sees it:
the body paragraphs plus the paragraphs of every table cell
(tables → rows → cells → paragraphs). -/
structure Doc where
  paragraphs : List Para
  tables : List (List (List (List Para)))
deriving DecidableEq

/-- `iter_all_paragraphs` from `src/app.py`: body paragraphs first, then
every paragraph of every table cell in table/row/cell order. -/
def iter_all_paragraphs (doc : Doc) : List Para :=
  doc.paragraphs ++
    doc.tables.flatMap (fun table => table.flatMap (fun row => row.flatMap (fun cell => cell)))

/-- `_replace_paragraph_text_preserve_style` from `src/app.py`: the
paragraph keeps its style reference and only its text changes (the
run-level details — writing into the first run and clearing the rest —
are below this abstraction). -/
def _replace_paragraph_text_preserve_style (p : Para) (new_text : String) : Para :=
  { p with text := new_text }

/-- The token strings of the placeholder map (literal braces written via
`\x7b`/`\x7d`). -/
def TOK_OVERVIEW : String := "\x7b\x7bOVERVIEW\x7d\x7d"

/-- The `SUMMARY` placeholder token. -/
def TOK_SUMMARY : String := "\x7b\x7bSUMMARY\x7d\x7d"

/-- The `CHALLENGES` placeholder token. -/
def TOK_CHALLENGES : String := "\x7b\x7bCHALLENGES\x7d\x7d"

/-- The `IMPROVEMENTS` placeholder token. -/
def TOK_IMPROVEMENTS : String := "\x7b\x7bIMPROVEMENTS\x7d\x7d"

/-- The `BENEFITS` placeholder token. -/
def TOK_BENEFITS : String := "\x7b\x7bBENEFITS\x7d\x7d"

/-- The `PLAN` placeholder token. -/
def TOK_PLAN : String := "\x7b\x7bPLAN\x7d\x7d"

/-- The six declared placeholder tokens. -/
def TOKENS : List String :=
  [TOK_OVERVIEW, TOK_SUMMARY, TOK_CHALLENGES, TOK_IMPROVEMENTS, TOK_BENEFITS, TOK_PLAN]

/-- The two kinds of entries of `placeholder_map` in
`fill_placeholders_in_template`: a scalar paragraph or a bullet list. -/
inductive FillKind where
  | para : String → FillKind
  | bullets : List String → FillKind
deriving DecidableEq

/-- The `placeholder_map` dict of `fill_placeholders_in_template` as a
lookup function on its six literal keys (a Python dict with literal
string keys is exactly this chain of equality tests). -/
def placeholder_lookup (overview summary : String)
    (challenges improvements benefits plan : List String) (raw : String) :
    Option FillKind :=
  if raw = TOK_OVERVIEW then some (.para overview)
  else if raw = TOK_SUMMARY then some (.para summary)
  else if raw = TOK_CHALLENGES then some (.bullets challenges)
  else if raw = TOK_IMPROVEMENTS then some (.bullets improvements)
  else if raw = TOK_BENEFITS then some (.bullets benefits)
  else if raw = TOK_PLAN then some (.bullets plan)
  else none

/-- Strip one leading bullet glyph and the whitespace after it:
`re.sub(r"^[bullet chars]\s*", "", s)` from `_clean_bullets` (the class
contains the bullet sign twice — literally and as an escape — so the
modelled set is the bullet sign, the hyphen and the asterisk). -/
def strip_bullet (s : String) : String :=
  match s.data with
  | [] => s
  | c :: rest =>
    if c = '•' ∨ c = '-' ∨ c = '*' then String.mk (rest.dropWhile pyIsSpace)
    else s

/-- Python iteration over a value, for `for x in items or []`: lists
yield their elements, strings their characters (as 1-character strings),
dicts their keys; `None`, numbers and booleans are not iterable
(`TypeError`). -/
def pyIterElems : PyVal → Option (List PyVal)
  | .vlist xs => some xs
  | .vstr s => some (s.data.map (fun c => .vstr (String.mk [c])))
  | .vdict kvs => some (kvs.map (fun kv => .vstr kv.1))
  | _ => none

/-- `_clean_bullets` from `src/app.py`: iterate `items or []`, skip
falsy elements, take `str(x).strip()`, strip one leading bullet glyph,
and keep what is still non-empty.  A truthy non-iterable argument raises
`TypeError` in Python, modelled as the error case. -/
def _clean_bullets (items : PyVal) : Except String (List String) :=
  match pyIterElems (if pyTruthy items then items else .vlist []) with
  | none => .error "TypeError: object is not iterable"
  | some xs =>
    .ok (xs.foldl
      (fun cleaned x =>
        if !pyTruthy x then cleaned
        else
          let s := strip_bullet (pyStrip (pyToStr x))
          if s == "" then cleaned else cleaned ++ [s])
      [])

/-- The scalar normalization of `fill_placeholders_in_template`:
`str(_safe_get(content, key, "")).strip()`. -/
def norm_scalar (content : PyDict) (key : String) : String :=
  pyStrip (pyToStr (_safe_get content key (.vstr "")))

/-- The bullet-list normalization of `fill_placeholders_in_template`:
`_clean_bullets(_safe_get(content, key, []))`. -/
def norm_list (content : PyDict) (key : String) : Except String (List String) :=
  _clean_bullets (_safe_get content key (.vlist []))

/-- The normalized bullet list when normalization succeeds (and `[]`
when it would raise; only used under a hypothesis that it succeeded). -/
def norm_list_ok (content : PyDict) (key : String) : List String :=
  match norm_list content key with
  | .ok l => l
  | .error _ => []

/-- The per-paragraph effect of the replacement loop of
`fill_placeholders_in_template` on one paragraph of the snapshot taken
by `iter_all_paragraphs`: an unmatched paragraph is untouched; a scalar
placeholder is rewritten in place; a bullet placeholder is rewritten to
the first bullet with the remaining bullets inserted after it, every
inserted paragraph carrying the placeholder paragraph's style
(`bullet_style = p.style` in the source); an empty bullet list writes
the literal `"TBD"`. -/
def expandPlaceholder (lookup : String → Option FillKind) (p : Para) : List Para :=
  match lookup (pyStrip p.text) with
  | none => [p]
  | some (.para value) => [_replace_paragraph_text_preserve_style p value]
  | some (.bullets items) =>
    match items with
    | [] => [_replace_paragraph_text_preserve_style p "TBD"]
    | first :: rest =>
      _replace_paragraph_text_preserve_style p first ::
        rest.map (fun item => { text := item, style := p.style })

/-- The per-paragraph expansion determined by a content dict (the
lookup built from the six normalized sections). -/
def fill_expand (content : PyDict) : Para → List Para :=
  expandPlaceholder
    (placeholder_lookup (norm_scalar content "overview") (norm_scalar content "summary")
      (norm_list_ok content "challenges") (norm_list_ok content "improvements")
      (norm_list_ok content "benefits") (norm_list_ok content "plan"))

/-- Apply the per-paragraph expansion inside every table cell. -/
def fill_tables (f : Para → List Para)
    (tables : List (List (List (List Para)))) : List (List (List (List Para))) :=
  tables.map (fun table => table.map (fun row => row.map (fun cell => cell.flatMap f)))

/-- `fill_placeholders_in_template` from `src/app.py`: normalize the six
sections (bullet normalization raises `TypeError` on a truthy
non-iterable value, in source order `challenges`, `improvements`,
`benefits`, `plan`), then run the single replacement pass over every
paragraph — body and table cells — of the template.  No validation of
token presence occurs anywhere. -/
def fill_placeholders_in_template (doc : Doc) (content : PyDict) : Except String Doc :=
  match norm_list content "challenges", norm_list content "improvements",
        norm_list content "benefits", norm_list content "plan" with
  | .ok challenges, .ok improvements, .ok benefits, .ok plan =>
    let f := expandPlaceholder
      (placeholder_lookup (norm_scalar content "overview") (norm_scalar content "summary")
        challenges improvements benefits plan)
    .ok { paragraphs := doc.paragraphs.flatMap f, tables := fill_tables f doc.tables }
  | .error e, _, _, _ => .error e
  | _, .error e, _, _ => .error e
  | _, _, .error e, _ => .error e
  | _, _, _, .error e => .error e

/-- The text a contributing shape adds to its slide's block, if any:
`none` when the shape has no text attribute, has falsy text, or strips
to the empty string. -/
def shape_text (sh : Shape) : Option String :=
  match sh.text with
  | none => none
  | some t0 =>
    if t0 == "" then none
    else
      let t := pyStrip t0
      if t == "" then none else some t

/-- The labelled block of a contributing slide (`n` is the 1-indexed
slide number). -/
def slide_block (n : Nat) (parts : List String) : String :=
  "Slide " ++ toString n ++ ":\n" ++ String.intercalate "\n" parts

/-- The optional block of an enumerated slide: `none` for slides that
contribute no text. -/
def slide_block? (p : Nat × List Shape) : Option String :=
  if slide_parts p.2 == [] then none
  else some (slide_block (p.1 + 1) (slide_parts p.2))

/-- The bullet paragraphs written for a bullet section: the cleaned
items, or the single sentinel `"TBD"` when the list is empty. -/
def bullets_or_tbd (items : List String) : List String :=
  match items with
  | [] => ["TBD"]
  | l => l

/-- The four bullet-list content keys with their placeholder tokens. -/
def BULLET_PAIRS : List (String × String) :=
  [("challenges", TOK_CHALLENGES), ("improvements", TOK_IMPROVEMENTS),
   ("benefits", TOK_BENEFITS), ("plan", TOK_PLAN)]

/-- A left fold that conditionally appends one element per input is the
initial value followed by a `filterMap`. -/
theorem foldl_append_filterMap {α β : Type} (h : α → Option β) :
    ∀ (l : List α) (init : List β),
      l.foldl (fun acc x => (h x).elim acc (fun y => acc ++ [y])) init
        = init ++ l.filterMap h := by
  intro l
  induction l with
  | nil => intro init; simp
  | cons x xs ih =>
    intro init
    cases hx : h x <;> simp [hx, ih, List.filterMap_cons]

/-- A `filterMap` by a guarded `some` is a `filter` followed by a `map`. -/
theorem filterMap_guard {α β : Type} (P : α → Bool) (f : α → β) :
    ∀ l : List α,
      l.filterMap (fun x => if P x then some (f x) else none) = (l.filter P).map f := by
  intro l
  induction l with
  | nil => simp
  | cons x xs ih =>
    cases hx : P x <;> simp [List.filterMap_cons, List.filter_cons, hx, ih]


/-- The truncation marker is 30 characters long and non-empty. -/
theorem truncation_marker_length : TRUNCATION_MARKER.length = 30 := by decide

/-- C8: `truncate_text` returns the text unchanged when its length is
within the budget, and otherwise returns exactly the first `max_chars`
characters followed by the literal truncation marker (so the result has
length `max_chars + 30`, its first `max_chars` characters are those of
the input, and its tail is the marker). -/
theorem C8_truncate_contract (t : List Char) (m : Nat) :
    (t.length ≤ m → truncate_text t m = t) ∧
    (m < t.length →
      truncate_text t m = t.take m ++ TRUNCATION_MARKER ∧
      (truncate_text t m).length = m + TRUNCATION_MARKER.length ∧
      (truncate_text t m).take m = t.take m ∧
      (truncate_text t m).drop m = TRUNCATION_MARKER) := by
  constructor
  · intro h
    simp [truncate_text, h]
  · intro h
    have hnot : ¬t.length ≤ m := not_le.mpr h
    have htm : truncate_text t m = t.take m ++ TRUNCATION_MARKER := by
      simp [truncate_text, hnot]
    have hlen : (t.take m).length = m := by
      simp [List.length_take, Nat.min_eq_left (le_of_lt h)]
    have htake : (t.take m ++ TRUNCATION_MARKER).take (t.take m).length = t.take m :=
      List.take_left _ _
    have hdrop : (t.take m ++ TRUNCATION_MARKER).drop (t.take m).length = TRUNCATION_MARKER :=
      List.drop_left _ _
    rw [hlen] at htake hdrop
    refine ⟨htm, ?_, ?_, ?_⟩
    · rw [htm, List.length_append, hlen]
    · rw [htm, htake]
    · rw [htm, hdrop]

/-- C8 witness: a concrete over-budget truncation. -/
theorem C8_witness :
    truncate_text ("hello").data 2 = ("hello").data.take 2 ++ TRUNCATION_MARKER :=
  ((C8_truncate_contract ("hello").data 2).2 (by decide)).1

/-- C3 counterexample: the claim quantifies over every budget pair
`m' ≥ m`, but re-truncating at a budget strictly between `m` and
`m + 30` (the marker's length) cuts into the appended marker, so the
already-truncated string is not a fixed point there: with `t = "ab"`,
`m = 1 ≤ m' = 2`, the two sides differ. -/
theorem C3_counterexample :
    (1 : Nat) ≤ 2 ∧
      truncate_text (truncate_text ("ab").data 1) 2 ≠ truncate_text ("ab").data 1 := by
  constructor
  · decide
  · decide

/-- C3 (amended): truncation already applied at budget `m` is a fixed
point at the same budget `m`, and at any budget `m' ≥ m + 30` (the
marker's length); and truncating at any budget at least the input's
length returns the input unchanged.  (For `m < m' < m + 30` the marker
is re-truncated, as the counterexample shows.) -/
theorem C3_truncate_fixed_point (t : List Char) (m m' : Nat)
    (h : m' = m ∨ m + TRUNCATION_MARKER.length ≤ m') :
    truncate_text (truncate_text t m) m' = truncate_text t m ∧
      (t.length ≤ m → truncate_text t m = t) := by
  by_cases hl : t.length ≤ m
  · have h1 : truncate_text t m = t := by simp [truncate_text, hl]
    have hle : t.length ≤ m' := by
      rcases h with he | hge
      · rw [he]; exact hl
      · exact le_trans hl (le_trans (Nat.le_add_right m _) hge)
    rw [h1]
    exact ⟨by simp [truncate_text, hle], fun _ => rfl⟩
  · have hm : m < t.length := not_le.mp hl
    have h1 : truncate_text t m = t.take m ++ TRUNCATION_MARKER := by
      simp [truncate_text, hl]
    have hlen : (t.take m).length = m := by
      simp [List.length_take, Nat.min_eq_left (le_of_lt hm)]
    have hlen2 : (truncate_text t m).length = m + TRUNCATION_MARKER.length := by
      rw [h1, List.length_append, hlen]
    have tle : ∀ (s : List Char) (k : Nat), s.length ≤ k → truncate_text s k = s :=
      fun s k hk => by simp [truncate_text, hk]
    have tgt : ∀ (s : List Char) (k : Nat), ¬s.length ≤ k →
        truncate_text s k = s.take k ++ TRUNCATION_MARKER :=
      fun s k hk => by simp [truncate_text, hk]
    refine ⟨?_, fun hc => absurd hc hl⟩
    rcases h with he | hge
    · have hgt : ¬(truncate_text t m).length ≤ m := by
        rw [hlen2, truncation_marker_length]
        omega
      have htake : (t.take m ++ TRUNCATION_MARKER).take (t.take m).length = t.take m :=
        List.take_left _ _
      rw [hlen] at htake
      rw [he, tgt _ _ hgt, h1, htake]
    · have hle : (truncate_text t m).length ≤ m' := by rw [hlen2]; exact hge
      exact tle _ _ hle

/-- C3 witness: a concrete instance with `m' ≥ m + 30`. -/
theorem C3_witness :
    truncate_text (truncate_text ("hello").data 2) 32 = truncate_text ("hello").data 2 :=
  (C3_truncate_fixed_point ("hello").data 2 32 (Or.inr (by decide))).1

/-- The per-slide loop collects exactly the texts selected by
`shape_text`, in shape order. -/
theorem slide_parts_eq (shapes : List Shape) :
    slide_parts shapes = shapes.filterMap shape_text := by
  have hf : (fun (parts : List String) (shape : Shape) =>
        match shape.text with
        | none => parts
        | some t0 =>
            if t0 == "" then parts
            else
              let t := pyStrip t0
              if t == "" then parts else parts ++ [t]) =
      (fun (parts : List String) (shape : Shape) =>
        (shape_text shape).elim parts (fun y => parts ++ [y])) := by
    funext parts shape
    cases h : shape.text with
    | none => simp [shape_text, h]
    | some t0 =>
      by_cases h1 : t0 == ""
      · simp [shape_text, h, h1]
      · by_cases h2 : pyStrip t0 == ""
        · simp [shape_text, h, h1, h2]
        · simp [shape_text, h, h1, h2]
  unfold slide_parts
  rw [hf, foldl_append_filterMap]
  simp

/-- The extractor emits exactly the optional blocks of the enumerated
slides. -/
theorem extract_slide_text_eq (slides : List (List Shape)) :
    extract_slide_text slides =
      String.intercalate "\n\n" (slides.enum.filterMap slide_block?) := by
  have hf : (fun (out : List String) (p : Nat × List Shape) =>
        let parts := slide_parts p.2
        if parts == [] then out
        else out ++ ["Slide " ++ toString (p.1 + 1) ++ ":\n" ++ String.intercalate "\n" parts]) =
      (fun (out : List String) (p : Nat × List Shape) =>
        (slide_block? p).elim out (fun y => out ++ [y])) := by
    funext out p
    by_cases h : slide_parts p.2 == []
    · simp [slide_block?, h]
    · simp [slide_block?, slide_block, h]
  simp only [extract_slide_text]
  rw [hf, foldl_append_filterMap]
  simp

/-- C7: the extractor's output is the blank-line join of exactly one
labelled block per slide that contributes text: the contributing slides
(those with at least one shape whose text attribute strips to a
non-empty string) are kept in original order, each block is prefixed
with the slide's original 1-indexed position, non-contributing slides
are omitted entirely, and a deck in which no slide contributes yields
the empty string (no error: the function is total). -/
theorem C7_extract_slide_text (slides : List (List Shape)) :
    extract_slide_text slides =
      String.intercalate "\n\n"
        ((slides.enum.filter (fun p => !(slide_parts p.2 == []))).map
          (fun p => slide_block (p.1 + 1) (slide_parts p.2))) ∧
    (∀ shapes : List Shape,
      (slide_parts shapes = [] ↔ ∀ sh ∈ shapes, ∀ t0, sh.text = some t0 → pyStrip t0 = "")) ∧
    ((∀ slide ∈ slides, slide_parts slide = []) → extract_slide_text slides = "") := by
  have hmain : extract_slide_text slides =
      String.intercalate "\n\n"
        ((slides.enum.filter (fun p => !(slide_parts p.2 == []))).map
          (fun p => slide_block (p.1 + 1) (slide_parts p.2))) := by
    rw [extract_slide_text_eq]
    congr 1
    have : slide_block? = (fun p : Nat × List Shape =>
        if !(slide_parts p.2 == []) then some (slide_block (p.1 + 1) (slide_parts p.2))
        else none) := by
      funext p
      by_cases h : slide_parts p.2 == [] <;> simp [slide_block?, h]
    rw [this, filterMap_guard]
  have hchar : ∀ shapes : List Shape,
      (slide_parts shapes = [] ↔ ∀ sh ∈ shapes, ∀ t0, sh.text = some t0 → pyStrip t0 = "") := by
    intro shapes
    rw [slide_parts_eq, List.filterMap_eq_nil_iff]
    constructor
    · intro h sh hsh t0 ht0
      have := h sh hsh
      rw [shape_text, ht0] at this
      by_cases h1 : t0 == ""
      · have : t0 = "" := by simpa using h1
        rw [this]
        decide
      · by_cases h2 : pyStrip t0 == ""
        · simpa using h2
        · simp [h1, h2] at this
    · intro h sh hsh
      rw [shape_text]
      cases ht0 : sh.text with
      | none => rfl
      | some t0 =>
        have hs : pyStrip t0 = "" := h sh hsh t0 ht0
        by_cases h1 : t0 == ""
        · simp [h1]
        · simp [h1, hs]
  refine ⟨hmain, hchar, ?_⟩
  intro hall
  rw [hmain]
  have hfilter : slides.enum.filter (fun p => !(slide_parts p.2 == [])) = [] := by
    rw [List.filter_eq_nil_iff]
    intro p hp
    have hmem : p.2 ∈ slides := by
      have := List.mem_map_of_mem Prod.snd hp
      rwa [List.enum_map_snd] at this
    simp [hall p.2 hmem]
  rw [hfilter]
  rfl

/-- C7 witness: a three-slide deck in which no slide contributes text
(a shape without a text attribute, a whitespace-only shape, an empty
slide) yields the empty string. -/
theorem C7_witness :
    extract_slide_text [[⟨none⟩], [⟨some "  "⟩], []] = "" :=
  (C7_extract_slide_text _).2.2 (by decide)

/-- The placeholder map at its `OVERVIEW` key. -/
theorem placeholder_lookup_overview (ov sm : String) (ch im be pl : List String) :
    placeholder_lookup ov sm ch im be pl TOK_OVERVIEW = some (.para ov) := by
  unfold placeholder_lookup
  rw [if_pos rfl]

/-- The placeholder map at its `SUMMARY` key. -/
theorem placeholder_lookup_summary (ov sm : String) (ch im be pl : List String) :
    placeholder_lookup ov sm ch im be pl TOK_SUMMARY = some (.para sm) := by
  unfold placeholder_lookup
  rw [if_neg (by decide), if_pos rfl]

/-- The placeholder map at its `CHALLENGES` key. -/
theorem placeholder_lookup_challenges (ov sm : String) (ch im be pl : List String) :
    placeholder_lookup ov sm ch im be pl TOK_CHALLENGES = some (.bullets ch) := by
  unfold placeholder_lookup
  rw [if_neg (by decide), if_neg (by decide), if_pos rfl]

/-- The placeholder map at its `IMPROVEMENTS` key. -/
theorem placeholder_lookup_improvements (ov sm : String) (ch im be pl : List String) :
    placeholder_lookup ov sm ch im be pl TOK_IMPROVEMENTS = some (.bullets im) := by
  unfold placeholder_lookup
  rw [if_neg (by decide), if_neg (by decide), if_neg (by decide), if_pos rfl]

/-- The placeholder map at its `BENEFITS` key. -/
theorem placeholder_lookup_benefits (ov sm : String) (ch im be pl : List String) :
    placeholder_lookup ov sm ch im be pl TOK_BENEFITS = some (.bullets be) := by
  unfold placeholder_lookup
  rw [if_neg (by decide), if_neg (by decide), if_neg (by decide), if_neg (by decide),
    if_pos rfl]

/-- The placeholder map at its `PLAN` key. -/
theorem placeholder_lookup_plan (ov sm : String) (ch im be pl : List String) :
    placeholder_lookup ov sm ch im be pl TOK_PLAN = some (.bullets pl) := by
  unfold placeholder_lookup
  rw [if_neg (by decide), if_neg (by decide), if_neg (by decide), if_neg (by decide),
    if_neg (by decide), if_pos rfl]

/-- A string that is none of the six tokens misses the placeholder map. -/
theorem placeholder_lookup_none (ov sm : String) (ch im be pl : List String)
    (raw : String) (h : raw ∉ TOKENS) :
    placeholder_lookup ov sm ch im be pl raw = none := by
  simp only [TOKENS, List.mem_cons, List.not_mem_nil, or_false, not_or] at h
  obtain ⟨h1, h2, h3, h4, h5, h6⟩ := h
  unfold placeholder_lookup
  rw [if_neg h1, if_neg h2, if_neg h3, if_neg h4, if_neg h5, if_neg h6]

/-- Every paragraph produced by the replacement pass for a source
paragraph carries that paragraph's style reference. -/
theorem expandPlaceholder_style (lookup : String → Option FillKind) (p q : Para)
    (hq : q ∈ expandPlaceholder lookup p) : q.style = p.style := by
  unfold expandPlaceholder at hq
  cases hl : lookup (pyStrip p.text) with
  | none =>
    rw [hl] at hq
    simp at hq
    rw [hq]
  | some fk =>
    rw [hl] at hq
    cases fk with
    | para value =>
      simp [_replace_paragraph_text_preserve_style] at hq
      rw [hq]
    | bullets items =>
      cases items with
      | nil =>
        simp [_replace_paragraph_text_preserve_style] at hq
        rw [hq]
      | cons first rest =>
        simp [_replace_paragraph_text_preserve_style] at hq
        rcases hq with hq | ⟨item, _, hq⟩
        · rw [hq]
        · rw [← hq]

/-- A paragraph whose stripped text misses the lookup is untouched. -/
theorem expandPlaceholder_unmatched (lookup : String → Option FillKind) (p : Para)
    (h : lookup (pyStrip p.text) = none) : expandPlaceholder lookup p = [p] := by
  unfold expandPlaceholder
  rw [h]

/-- The text of every paragraph produced by the replacement pass is the
source paragraph's text, a scalar section value, a bullet item, or the
sentinel `"TBD"`. -/
theorem expandPlaceholder_text (lookup : String → Option FillKind) (p q : Para)
    (hq : q ∈ expandPlaceholder lookup p) :
    (lookup (pyStrip p.text) = none ∧ q.text = p.text) ∨
      (∃ v, lookup (pyStrip p.text) = some (.para v) ∧ q.text = v) ∨
      (∃ items, lookup (pyStrip p.text) = some (.bullets items) ∧
        (q.text ∈ items ∨ q.text = "TBD")) := by
  unfold expandPlaceholder at hq
  cases hl : lookup (pyStrip p.text) with
  | none =>
    rw [hl] at hq
    simp at hq
    left
    exact ⟨rfl, by rw [hq]⟩
  | some fk =>
    rw [hl] at hq
    cases fk with
    | para value =>
      simp [_replace_paragraph_text_preserve_style] at hq
      right; left
      exact ⟨value, rfl, by rw [hq]⟩
    | bullets items =>
      cases items with
      | nil =>
        simp [_replace_paragraph_text_preserve_style] at hq
        right; right
        exact ⟨[], rfl, Or.inr (by rw [hq])⟩
      | cons first rest =>
        simp [_replace_paragraph_text_preserve_style] at hq
        right; right
        refine ⟨first :: rest, rfl, Or.inl ?_⟩
        rcases hq with hq | ⟨item, hitem, hq⟩
        · rw [hq]; exact List.mem_cons_self _ _
        · rw [← hq]; exact List.mem_cons_of_mem _ hitem

/-- The texts written for a bullet placeholder are exactly
`bullets_or_tbd` of the section's items. -/
theorem expandPlaceholder_bullets_texts (lookup : String → Option FillKind) (p : Para)
    (items : List String) (h : lookup (pyStrip p.text) = some (.bullets items)) :
    (expandPlaceholder lookup p).map Para.text = bullets_or_tbd items := by
  unfold expandPlaceholder
  rw [h]
  cases items with
  | nil => rfl
  | cons first rest =>
    have hid : (Para.text ∘ fun item => ({ text := item, style := p.style } : Para)) = id := by
      funext item
      rfl
    simp [bullets_or_tbd, _replace_paragraph_text_preserve_style, hid]

/-- A successful fill determines the output document: every container's
paragraph list is the per-paragraph expansion of the original, and the
four bullet normalizations succeeded. -/
theorem fill_ok_elim {doc : Doc} {content : PyDict} {doc' : Doc}
    (h : fill_placeholders_in_template doc content = .ok doc') :
    (∃ l, norm_list content "challenges" = .ok l) ∧
    (∃ l, norm_list content "improvements" = .ok l) ∧
    (∃ l, norm_list content "benefits" = .ok l) ∧
    (∃ l, norm_list content "plan" = .ok l) ∧
    doc'.paragraphs = doc.paragraphs.flatMap (fill_expand content) ∧
    doc'.tables = fill_tables (fill_expand content) doc.tables := by
  unfold fill_placeholders_in_template at h
  cases hc : norm_list content "challenges" with
  | error e => rw [hc] at h; exact absurd h (by simp)
  | ok lc =>
  cases hi : norm_list content "improvements" with
  | error e => rw [hc, hi] at h; exact absurd h (by simp)
  | ok li =>
  cases hb : norm_list content "benefits" with
  | error e => rw [hc, hi, hb] at h; exact absurd h (by simp)
  | ok lb =>
  cases hp : norm_list content "plan" with
  | error e => rw [hc, hi, hb, hp] at h; exact absurd h (by simp)
  | ok lp =>
  rw [hc, hi, hb, hp] at h
  simp only [Except.ok.injEq] at h
  have hfe : fill_expand content = expandPlaceholder
      (placeholder_lookup (norm_scalar content "overview") (norm_scalar content "summary")
        lc li lb lp) := by
    unfold fill_expand norm_list_ok
    rw [hc, hi, hb, hp]
  refine ⟨⟨lc, rfl⟩, ⟨li, rfl⟩, ⟨lb, rfl⟩, ⟨lp, rfl⟩, ?_, ?_⟩
  · rw [← h, hfe]
  · rw [← h, hfe]

/-- Whenever the four bullet normalizations succeed, the fill succeeds
and produces exactly the expanded document — there is no other
precondition (in particular none about token presence). -/
theorem fill_ok_intro (doc : Doc) (content : PyDict)
    (hc : ∃ l, norm_list content "challenges" = .ok l)
    (hi : ∃ l, norm_list content "improvements" = .ok l)
    (hb : ∃ l, norm_list content "benefits" = .ok l)
    (hp : ∃ l, norm_list content "plan" = .ok l) :
    fill_placeholders_in_template doc content =
      .ok ⟨doc.paragraphs.flatMap (fill_expand content),
           fill_tables (fill_expand content) doc.tables⟩ := by
  obtain ⟨lc, hc⟩ := hc
  obtain ⟨li, hi⟩ := hi
  obtain ⟨lb, hb⟩ := hb
  obtain ⟨lp, hp⟩ := hp
  have hfe : fill_expand content = expandPlaceholder
      (placeholder_lookup (norm_scalar content "overview") (norm_scalar content "summary")
        lc li lb lp) := by
    unfold fill_expand norm_list_ok
    rw [hc, hi, hb, hp]
  unfold fill_placeholders_in_template
  rw [hc, hi, hb, hp, hfe]

/-- Normalizing a key whose raw value is a list (or is absent or null,
defaulting to the empty list) never raises. -/
theorem norm_list_ok_of_list (content : PyDict) (key : String)
    (h : dict_get content key = none ∨ dict_get content key = some .vnone ∨
      ∃ xs, dict_get content key = some (.vlist xs)) :
    ∃ l, norm_list content key = .ok l := by
  unfold norm_list _safe_get
  rcases h with h | h | ⟨xs, h⟩
  · rw [h]
    exact ⟨_, rfl⟩
  · rw [h]
    exact ⟨_, rfl⟩
  · rw [h]
    unfold _clean_bullets
    by_cases ht : pyTruthy (.vlist xs)
    · rw [if_pos ht]
      exact ⟨_, rfl⟩
    · rw [if_neg ht]
      exact ⟨_, rfl⟩

/-- Flattening the filled document's containers is the expansion of the
flattened original. -/
theorem iter_all_fill (f : Para → List Para) (doc : Doc) :
    iter_all_paragraphs ⟨doc.paragraphs.flatMap f, fill_tables f doc.tables⟩ =
      (iter_all_paragraphs doc).flatMap f := by
  unfold iter_all_paragraphs fill_tables
  simp only [List.flatMap_map, List.flatMap_append]
  congr 1
  induction doc.tables with
  | nil => rfl
  | cons t ts iht =>
    simp only [List.flatMap_cons, iht, List.flatMap_append]
    congr 1
    induction t with
    | nil => rfl
    | cons r rs ihr =>
      simp only [List.map_cons, List.flatMap_cons, ihr, List.flatMap_append]
      congr 1
      induction r with
      | nil => rfl
      | cons c cs ihc =>
        simp only [List.map_cons, List.flatMap_cons, ihc, List.flatMap_append]

/-- `fill_expand` is the per-paragraph expansion under the lookup built
from the six normalized sections. -/
theorem fill_expand_eq (content : PyDict) :
    fill_expand content =
      expandPlaceholder
        (placeholder_lookup (norm_scalar content "overview") (norm_scalar content "summary")
          (norm_list_ok content "challenges") (norm_list_ok content "improvements")
          (norm_list_ok content "benefits") (norm_list_ok content "plan")) := rfl

/-- Each of the six tokens strips to itself. -/
theorem pyStrip_token : ∀ tok ∈ TOKENS, pyStrip tok = tok := by decide

/-- Every token hits the placeholder map. -/
theorem placeholder_lookup_isSome_of_token (ov sm : String) (ch im be pl : List String)
    (raw : String) (h : raw ∈ TOKENS) :
    placeholder_lookup ov sm ch im be pl raw ≠ none := by
  simp only [TOKENS, List.mem_cons, List.not_mem_nil, or_false] at h
  rcases h with h | h | h | h | h | h <;> subst h
  · rw [placeholder_lookup_overview]; simp
  · rw [placeholder_lookup_summary]; simp
  · rw [placeholder_lookup_challenges]; simp
  · rw [placeholder_lookup_improvements]; simp
  · rw [placeholder_lookup_benefits]; simp
  · rw [placeholder_lookup_plan]; simp

/-- A scalar hit of the placeholder map carries one of the two scalar
section values. -/
theorem placeholder_lookup_para_inv (ov sm : String) (ch im be pl : List String)
    (raw v : String) (h : placeholder_lookup ov sm ch im be pl raw = some (.para v)) :
    v = ov ∨ v = sm := by
  unfold placeholder_lookup at h
  split_ifs at h
  all_goals first
    | exact Or.inl (FillKind.para.inj (Option.some.inj h)).symm
    | exact Or.inr (FillKind.para.inj (Option.some.inj h)).symm
    | exact FillKind.noConfusion (Option.some.inj h)

/-- A bullet hit of the placeholder map carries one of the four bullet
section lists. -/
theorem placeholder_lookup_bullets_inv (ov sm : String) (ch im be pl : List String)
    (raw : String) (items : List String)
    (h : placeholder_lookup ov sm ch im be pl raw = some (.bullets items)) :
    items = ch ∨ items = im ∨ items = be ∨ items = pl := by
  unfold placeholder_lookup at h
  split_ifs at h
  all_goals first
    | exact FillKind.noConfusion (Option.some.inj h)
    | exact Or.inl (FillKind.bullets.inj (Option.some.inj h)).symm
    | exact Or.inr (Or.inl (FillKind.bullets.inj (Option.some.inj h)).symm)
    | exact Or.inr (Or.inr (Or.inl (FillKind.bullets.inj (Option.some.inj h)).symm))
    | exact Or.inr (Or.inr (Or.inr (FillKind.bullets.inj (Option.some.inj h)).symm))

/-- The placeholder map sends each bullet key's token to that key's
normalized list. -/
theorem fill_lookup_bullet (content : PyDict) (k tok : String)
    (hk : (k, tok) ∈ BULLET_PAIRS) :
    placeholder_lookup (norm_scalar content "overview") (norm_scalar content "summary")
      (norm_list_ok content "challenges") (norm_list_ok content "improvements")
      (norm_list_ok content "benefits") (norm_list_ok content "plan") tok =
      some (.bullets (norm_list_ok content k)) := by
  simp only [BULLET_PAIRS, List.mem_cons, List.not_mem_nil, or_false] at hk
  rcases hk with hk | hk | hk | hk <;> (injection hk with hk1 hk2; subst hk1; subst hk2)
  · exact placeholder_lookup_challenges _ _ _ _ _ _
  · exact placeholder_lookup_improvements _ _ _ _ _ _
  · exact placeholder_lookup_benefits _ _ _ _ _ _
  · exact placeholder_lookup_plan _ _ _ _ _ _

/-- A paragraph bearing a scalar token expands to the single paragraph
carrying that section's normalized value and the original style. -/
theorem fill_expand_scalar (content : PyDict) (p : Para) :
    (pyStrip p.text = TOK_OVERVIEW →
      fill_expand content p = [⟨norm_scalar content "overview", p.style⟩]) ∧
    (pyStrip p.text = TOK_SUMMARY →
      fill_expand content p = [⟨norm_scalar content "summary", p.style⟩]) := by
  constructor
  · intro hp
    rw [fill_expand_eq]
    unfold expandPlaceholder
    rw [hp, placeholder_lookup_overview]
    rfl
  · intro hp
    rw [fill_expand_eq]
    unfold expandPlaceholder
    rw [hp, placeholder_lookup_summary]
    rfl

/-- The texts written for a paragraph bearing a bullet key's token are
exactly `bullets_or_tbd` of that key's normalized list. -/
theorem fill_expand_bullet (content : PyDict) (k tok : String)
    (hk : (k, tok) ∈ BULLET_PAIRS) (p : Para) (hp : pyStrip p.text = tok) :
    (fill_expand content p).map Para.text = bullets_or_tbd (norm_list_ok content k) := by
  rw [fill_expand_eq]
  exact expandPlaceholder_bullets_texts _ p _ (by rw [hp]; exact fill_lookup_bullet content k tok hk)

/-- A paragraph bearing a bullet key's token whose normalized list is
empty expands to one `"TBD"` paragraph with the original style. -/
theorem fill_expand_bullet_empty (content : PyDict) (k tok : String)
    (hk : (k, tok) ∈ BULLET_PAIRS) (he : norm_list_ok content k = [])
    (p : Para) (hp : pyStrip p.text = tok) :
    fill_expand content p = [⟨"TBD", p.style⟩] := by
  rw [fill_expand_eq]
  unfold expandPlaceholder
  rw [hp, fill_lookup_bullet content k tok hk, he]
  rfl

/-- A scalar key that is absent, null, or the empty string normalizes to
the empty string. -/
theorem norm_scalar_empty (content : PyDict) (key : String)
    (h : dict_get content key = none ∨ dict_get content key = some .vnone ∨
      dict_get content key = some (.vstr "")) :
    norm_scalar content key = "" := by
  unfold norm_scalar _safe_get
  rcases h with h | h | h <;> rw [h] <;> rfl

/-- C1 counterexample: the claim requires `fill_placeholders_in_template`
to fail with a descriptive error whenever a declared token is missing
from the template and to leave no partially filled document.  On a
one-paragraph template containing only the `OVERVIEW` token (so the
other five tokens, `SUMMARY` among them, are missing) the function does
not fail: it returns a document in which the `OVERVIEW` paragraph has
been rewritten. -/
theorem C1_counterexample :
    fill_placeholders_in_template ⟨[⟨TOK_OVERVIEW, "Body"⟩], []⟩
        [("overview", .vstr "Filled")] =
      .ok ⟨[⟨"Filled", "Body"⟩], []⟩ ∧
    TOK_SUMMARY ∈ TOKENS ∧
    (∀ p ∈ iter_all_paragraphs ⟨[⟨TOK_OVERVIEW, "Body"⟩], []⟩, pyStrip p.text ≠ TOK_SUMMARY) := by
  refine ⟨by rfl, by decide, by decide⟩

/-- C1 (amended): `fill_placeholders_in_template` performs no validation
of token presence.  When a declared token occurs in no paragraph of the
template, filling succeeds all the same (provided the four bullet
normalizations raise no error, the only failure the function has): every
present token is filled by the single replacement pass, the missing
token's section is silently omitted, and no error is raised — the
partially filled document is produced. -/
theorem C1_no_validation (doc : Doc) (content : PyDict) (tok : String)
    (htok : tok ∈ TOKENS)
    (hmiss : ∀ p ∈ iter_all_paragraphs doc, pyStrip p.text ≠ tok)
    (hc : ∃ l, norm_list content "challenges" = .ok l)
    (hi : ∃ l, norm_list content "improvements" = .ok l)
    (hb : ∃ l, norm_list content "benefits" = .ok l)
    (hp : ∃ l, norm_list content "plan" = .ok l) :
    fill_placeholders_in_template doc content =
      .ok ⟨doc.paragraphs.flatMap (fill_expand content),
           fill_tables (fill_expand content) doc.tables⟩ ∧
    ∀ p ∈ iter_all_paragraphs doc, pyStrip p.text ∉ TOKENS → fill_expand content p = [p] := by
  refine ⟨fill_ok_intro doc content hc hi hb hp, ?_⟩
  intro p _ hnp
  rw [fill_expand_eq]
  exact expandPlaceholder_unmatched _ p (placeholder_lookup_none _ _ _ _ _ _ _ hnp)

/-- C1 witness: a template containing only the `CHALLENGES` token (the
`SUMMARY` token is missing) is still filled without error. -/
theorem C1_witness :
    fill_placeholders_in_template ⟨[⟨TOK_CHALLENGES, "s"⟩], []⟩ [] =
      .ok ⟨[⟨"TBD", "s"⟩], []⟩ := by
  have h := (C1_no_validation ⟨[⟨TOK_CHALLENGES, "s"⟩], []⟩ [] TOK_SUMMARY (by decide)
    (by decide) ⟨[], rfl⟩ ⟨[], rfl⟩ ⟨[], rfl⟩ ⟨[], rfl⟩).1
  rw [h]
  rfl

/-- C2 counterexample: the claim requires every absent, null, or
empty-after-normalization key — scalar fields included — to be written
as the literal `"TBD"`.  With `overview` null and `summary` absent, both
scalar placeholders are written as the empty string instead. -/
theorem C2_counterexample :
    fill_placeholders_in_template ⟨[⟨TOK_OVERVIEW, "s"⟩, ⟨TOK_SUMMARY, "s"⟩], []⟩
        [("overview", .vnone)] =
      .ok ⟨[⟨"", "s"⟩, ⟨"", "s"⟩], []⟩ ∧
    ("" : String) ≠ "TBD" := by
  refine ⟨by rfl, by decide⟩

/-- C2 (amended): after normalization, the four bullet-list keys that
are absent, null, or empty are rendered as a single `"TBD"` paragraph;
the two scalar keys (`overview`, `summary`) are rendered as their
normalized string, which for an absent, null, or empty value is the
empty string — not the `"TBD"` sentinel. -/
theorem C2_normalization (doc : Doc) (content : PyDict) (doc' : Doc)
    (h : fill_placeholders_in_template doc content = .ok doc') (p : Para) :
    doc'.paragraphs = doc.paragraphs.flatMap (fill_expand content) ∧
    (pyStrip p.text = TOK_OVERVIEW →
      fill_expand content p = [⟨norm_scalar content "overview", p.style⟩]) ∧
    (pyStrip p.text = TOK_SUMMARY →
      fill_expand content p = [⟨norm_scalar content "summary", p.style⟩]) ∧
    (∀ key ∈ ["overview", "summary"],
      (dict_get content key = none ∨ dict_get content key = some .vnone ∨
        dict_get content key = some (.vstr "")) →
      norm_scalar content key = "") ∧
    (∀ k tok, (k, tok) ∈ BULLET_PAIRS → norm_list_ok content k = [] →
      pyStrip p.text = tok → fill_expand content p = [⟨"TBD", p.style⟩]) := by
  refine ⟨(fill_ok_elim h).2.2.2.2.1, (fill_expand_scalar content p).1,
    (fill_expand_scalar content p).2, ?_, ?_⟩
  · intro key _ hkey
    exact norm_scalar_empty content key hkey
  · intro k tok hk he hp
    exact fill_expand_bullet_empty content k tok hk he p hp

/-- C2 witness: with an empty content dict, the `OVERVIEW` placeholder
paragraph is rewritten to the (empty) normalized overview string. -/
theorem C2_witness :
    fill_expand [] ⟨TOK_OVERVIEW, "s"⟩ = [⟨norm_scalar [] "overview", "s"⟩] := by
  have h := C2_normalization ⟨[], []⟩ [] ⟨[], []⟩ (by rfl) ⟨TOK_OVERVIEW, "s"⟩
  exact h.2.1 (by decide)

/-- C5: the response parsing of `generate_structured_sections` first
attempts a strict `json.loads` of the (stripped) response text; on
failure it extracts the single greedy brace span — first opening brace
to last closing brace — and parses that; when no span exists it fails
with the error `"Model did not return JSON."`; no retry exists on any
path (each stage is consulted exactly once).  On the response
`"Some preamble {"overview": "X"} trailing junk"` (braces literal) the
strict parse fails, the fallback extracts the span, and the result is
the mapping `overview -> "X"`. -/
theorem C5_parse_pipeline (text : String) :
    (∀ v, json_loads (pyStrip text) = some v →
      generate_structured_sections_parse text = .ok v) ∧
    (json_loads (pyStrip text) = none → extract_brace_span (pyStrip text) = none →
      generate_structured_sections_parse text = .error "Model did not return JSON.") ∧
    (∀ s, json_loads (pyStrip text) = none → extract_brace_span (pyStrip text) = some s →
      generate_structured_sections_parse text =
        (match json_loads s with
          | some v => .ok v
          | none => .error "json.JSONDecodeError")) ∧
    (text = "Some preamble \x7b\"overview\": \"X\"\x7d trailing junk" →
      generate_structured_sections_parse text = .ok (.vdict [("overview", .vstr "X")])) := by
  refine ⟨?_, ?_, ?_, ?_⟩
  · intro v hv
    simp only [generate_structured_sections_parse]
    rw [hv]
  · intro h1 h2
    simp only [generate_structured_sections_parse]
    rw [h1, h2]
  · intro s h1 h2
    simp only [generate_structured_sections_parse]
    rw [h1, h2]
  · intro ht
    rw [ht]
    rfl

/-- C5 witness: the concrete fallback scenario of the specification. -/
theorem C5_witness :
    generate_structured_sections_parse
        "Some preamble \x7b\"overview\": \"X\"\x7d trailing junk" =
      .ok (.vdict [("overview", .vstr "X")]) :=
  (C5_parse_pipeline _).2.2.2 rfl

/-- C6: whenever a bullet-list key normalizes to the empty list, every
paragraph bearing that key's token is replaced by exactly one paragraph
whose text is `"TBD"` (carrying the placeholder's style) — never by zero
paragraphs. -/
theorem C6_empty_list_tbd (doc : Doc) (content : PyDict) (doc' : Doc)
    (h : fill_placeholders_in_template doc content = .ok doc')
    (k tok : String) (hk : (k, tok) ∈ BULLET_PAIRS)
    (he : norm_list content k = .ok [])
    (p : Para) (hp : pyStrip p.text = tok) :
    fill_expand content p = [⟨"TBD", p.style⟩] ∧
    doc'.paragraphs = doc.paragraphs.flatMap (fill_expand content) ∧
    doc'.tables = fill_tables (fill_expand content) doc.tables := by
  have he' : norm_list_ok content k = [] := by
    unfold norm_list_ok
    rw [he]
  have hstruct := fill_ok_elim h
  exact ⟨fill_expand_bullet_empty content k tok hk he' p hp,
    hstruct.2.2.2.2.1, hstruct.2.2.2.2.2⟩

/-- C6 witness: an explicitly empty `challenges` list yields the single
`"TBD"` bullet paragraph. -/
theorem C6_witness :
    fill_expand [("challenges", .vlist [])] ⟨TOK_CHALLENGES, "Bullet"⟩ =
      [⟨"TBD", "Bullet"⟩] := by
  have h := C6_empty_list_tbd ⟨[], []⟩ [("challenges", .vlist [])] ⟨[], []⟩ (by rfl)
    "challenges" TOK_CHALLENGES (by decide) (by rfl) ⟨TOK_CHALLENGES, "Bullet"⟩ (by decide)
  exact h.1

/-- C9: a successful fill changes only raw text content — every
container of the output is the per-paragraph expansion of the input,
a paragraph whose trimmed text is none of the six tokens is kept
entirely unchanged, and every paragraph written by the pass (the
rewritten placeholder as well as every inserted bullet paragraph)
carries the style reference of the placeholder paragraph it replaces or
follows. -/
theorem C9_style_preservation (doc : Doc) (content : PyDict) (doc' : Doc)
    (h : fill_placeholders_in_template doc content = .ok doc') :
    doc'.paragraphs = doc.paragraphs.flatMap (fill_expand content) ∧
    doc'.tables = fill_tables (fill_expand content) doc.tables ∧
    (∀ p : Para, pyStrip p.text ∉ TOKENS → fill_expand content p = [p]) ∧
    (∀ p q : Para, q ∈ fill_expand content p → q.style = p.style) := by
  have hs := fill_ok_elim h
  refine ⟨hs.2.2.2.2.1, hs.2.2.2.2.2, ?_, ?_⟩
  · intro p hp
    rw [fill_expand_eq]
    exact expandPlaceholder_unmatched _ p (placeholder_lookup_none _ _ _ _ _ _ _ hp)
  · intro p q hq
    rw [fill_expand_eq] at hq
    exact expandPlaceholder_style _ p q hq

/-- C9 witness: a non-placeholder paragraph survives a successful fill
unchanged, style included. -/
theorem C9_witness :
    fill_expand [("overview", .vstr "O")] ⟨"no token", "Normal"⟩ =
      [⟨"no token", "Normal"⟩] := by
  have h := C9_style_preservation ⟨[], []⟩ [("overview", .vstr "O")] ⟨[], []⟩ (by rfl)
  exact h.2.2.1 ⟨"no token", "Normal"⟩ (by decide)

/-- C10: the replacement pass substitutes every occurrence of a token,
not only the first — the same per-paragraph expansion is applied to the
body and to every table-cell paragraph (so the flattened output is the
expansion of the flattened input), two paragraphs whose trimmed texts
are the same token receive replacement content with identical texts, and
each token paragraph receives exactly its section's content: the
normalized scalar for `OVERVIEW`/`SUMMARY`, and the cleaned bullet items
(or the `"TBD"` singleton) for the four bullet tokens. -/
theorem C10_every_occurrence (doc : Doc) (content : PyDict) (doc' : Doc)
    (h : fill_placeholders_in_template doc content = .ok doc') :
    doc'.paragraphs = doc.paragraphs.flatMap (fill_expand content) ∧
    doc'.tables = fill_tables (fill_expand content) doc.tables ∧
    iter_all_paragraphs doc' = (iter_all_paragraphs doc).flatMap (fill_expand content) ∧
    (∀ p q : Para, pyStrip p.text = pyStrip q.text → pyStrip p.text ∈ TOKENS →
      (fill_expand content p).map Para.text = (fill_expand content q).map Para.text) ∧
    (∀ p : Para, pyStrip p.text = TOK_OVERVIEW →
      (fill_expand content p).map Para.text = [norm_scalar content "overview"]) ∧
    (∀ p : Para, pyStrip p.text = TOK_SUMMARY →
      (fill_expand content p).map Para.text = [norm_scalar content "summary"]) ∧
    (∀ p : Para, ∀ k tok, (k, tok) ∈ BULLET_PAIRS → pyStrip p.text = tok →
      (fill_expand content p).map Para.text = bullets_or_tbd (norm_list_ok content k)) := by
  have hs := fill_ok_elim h
  have h1 := hs.2.2.2.2.1
  have h2 := hs.2.2.2.2.2
  have hiter : iter_all_paragraphs doc' =
      (iter_all_paragraphs doc).flatMap (fill_expand content) := by
    have hit := iter_all_fill (fill_expand content) doc
    have hd : doc' = (⟨doc.paragraphs.flatMap (fill_expand content),
        fill_tables (fill_expand content) doc.tables⟩ : Doc) := by
      cases doc' with
      | mk a b =>
        have ha : a = doc.paragraphs.flatMap (fill_expand content) := h1
        have hb : b = fill_tables (fill_expand content) doc.tables := h2
        rw [ha, hb]
    rw [hd]
    exact hit
  have hov : ∀ p : Para, pyStrip p.text = TOK_OVERVIEW →
      (fill_expand content p).map Para.text = [norm_scalar content "overview"] := by
    intro p hp
    rw [(fill_expand_scalar content p).1 hp]
    rfl
  have hsm : ∀ p : Para, pyStrip p.text = TOK_SUMMARY →
      (fill_expand content p).map Para.text = [norm_scalar content "summary"] := by
    intro p hp
    rw [(fill_expand_scalar content p).2 hp]
    rfl
  have hbul : ∀ p : Para, ∀ k tok, (k, tok) ∈ BULLET_PAIRS → pyStrip p.text = tok →
      (fill_expand content p).map Para.text = bullets_or_tbd (norm_list_ok content k) :=
    fun p k tok hk hp => fill_expand_bullet content k tok hk p hp
  refine ⟨h1, h2, hiter, ?_, hov, hsm, hbul⟩
  intro p q hpq htk
  simp only [TOKENS, List.mem_cons, List.not_mem_nil, or_false] at htk
  rcases htk with ht | ht | ht | ht | ht | ht
  · rw [hov p ht, hov q (hpq.symm.trans ht)]
  · rw [hsm p ht, hsm q (hpq.symm.trans ht)]
  · rw [hbul p "challenges" TOK_CHALLENGES (by decide) ht,
      hbul q "challenges" TOK_CHALLENGES (by decide) (hpq.symm.trans ht)]
  · rw [hbul p "improvements" TOK_IMPROVEMENTS (by decide) ht,
      hbul q "improvements" TOK_IMPROVEMENTS (by decide) (hpq.symm.trans ht)]
  · rw [hbul p "benefits" TOK_BENEFITS (by decide) ht,
      hbul q "benefits" TOK_BENEFITS (by decide) (hpq.symm.trans ht)]
  · rw [hbul p "plan" TOK_PLAN (by decide) ht,
      hbul q "plan" TOK_PLAN (by decide) (hpq.symm.trans ht)]

/-- C10 witness: two paragraphs bearing the `PLAN` token — one of them
whitespace-padded, with a different style — receive replacement content
with identical texts. -/
theorem C10_witness :
    (fill_expand [("plan", .vlist [.vstr "a"])] ⟨TOK_PLAN, "x"⟩).map Para.text =
      (fill_expand [("plan", .vlist [.vstr "a"])] ⟨" " ++ TOK_PLAN ++ " ", "y"⟩).map
        Para.text := by
  have h := C10_every_occurrence ⟨[], []⟩ [("plan", .vlist [.vstr "a"])] ⟨[], []⟩ (by rfl)
  exact h.2.2.2.1 ⟨TOK_PLAN, "x"⟩ ⟨" " ++ TOK_PLAN ++ " ", "y"⟩ (by decide) (by decide)

/-- C4 counterexample: the claim quantifies over every content mapping
whose scalar fields are non-empty strings and whose list fields are
non-empty lists of non-empty strings, but a content value may itself be
a token string.  On a template containing all six tokens and a fully
populated mapping whose `overview` value is the literal `SUMMARY` token,
the filled document contains a paragraph whose text is that token (the
single replacement pass never revisits text it has written). -/
theorem C4_counterexample :
    fill_placeholders_in_template
        ⟨[⟨TOK_OVERVIEW, "s"⟩, ⟨TOK_CHALLENGES, "s"⟩, ⟨TOK_IMPROVEMENTS, "s"⟩,
          ⟨TOK_BENEFITS, "s"⟩, ⟨TOK_PLAN, "s"⟩, ⟨TOK_SUMMARY, "s"⟩], []⟩
        [("overview", .vstr TOK_SUMMARY), ("summary", .vstr "Done"),
         ("challenges", .vlist [.vstr "a"]), ("improvements", .vlist [.vstr "b"]),
         ("benefits", .vlist [.vstr "c"]), ("plan", .vlist [.vstr "d"])] =
      .ok ⟨[⟨TOK_SUMMARY, "s"⟩, ⟨"a", "s"⟩, ⟨"b", "s"⟩, ⟨"c", "s"⟩, ⟨"d", "s"⟩,
        ⟨"Done", "s"⟩], []⟩ ∧
    (⟨TOK_SUMMARY, "s"⟩ : Para) ∈ iter_all_paragraphs
      ⟨[⟨TOK_SUMMARY, "s"⟩, ⟨"a", "s"⟩, ⟨"b", "s"⟩, ⟨"c", "s"⟩, ⟨"d", "s"⟩,
        ⟨"Done", "s"⟩], []⟩ ∧
    TOK_SUMMARY ∈ TOKENS := by
  refine ⟨by rfl, by decide, by decide⟩

/-- C4 (amended): for a template whose paragraphs contain all six tokens
and a content mapping in which every scalar field is a non-empty string
and every list field a non-empty list of non-empty strings — and in
which, additionally, no normalized section value (scalar or bullet item)
is itself one of the six token strings — the fill succeeds and the
returned document contains no paragraph whose text is any of the six
tokens: every token paragraph is replaced by its section's content. -/
theorem C4_all_tokens_replaced (doc : Doc) (content : PyDict)
    (hdoc : ∀ tok ∈ TOKENS, ∃ p ∈ iter_all_paragraphs doc, pyStrip p.text = tok)
    (hov : ∃ s, dict_get content "overview" = some (.vstr s) ∧ s ≠ "")
    (hsm : ∃ s, dict_get content "summary" = some (.vstr s) ∧ s ≠ "")
    (hlists : ∀ k ∈ (["challenges", "improvements", "benefits", "plan"] : List String),
      ∃ xs, dict_get content k = some (.vlist xs) ∧ xs ≠ [] ∧
        ∀ x ∈ xs, ∃ s, x = .vstr s ∧ s ≠ "")
    (hnotok : norm_scalar content "overview" ∉ TOKENS ∧
      norm_scalar content "summary" ∉ TOKENS ∧
      ∀ k ∈ (["challenges", "improvements", "benefits", "plan"] : List String),
        ∀ s ∈ norm_list_ok content k, s ∉ TOKENS) :
    ∃ doc', fill_placeholders_in_template doc content = .ok doc' ∧
      ∀ p ∈ iter_all_paragraphs doc', p.text ∉ TOKENS := by
  have hok : ∀ k ∈ (["challenges", "improvements", "benefits", "plan"] : List String),
      ∃ l, norm_list content k = .ok l := by
    intro k hk
    obtain ⟨xs, hxs, -, -⟩ := hlists k hk
    exact norm_list_ok_of_list content k (Or.inr (Or.inr ⟨xs, hxs⟩))
  refine ⟨_, fill_ok_intro doc content (hok _ (by decide)) (hok _ (by decide))
    (hok _ (by decide)) (hok _ (by decide)), ?_⟩
  intro p hp
  rw [iter_all_fill] at hp
  obtain ⟨p0, hp0, hpe⟩ := List.mem_flatMap.mp hp
  rw [fill_expand_eq] at hpe
  intro htk
  rcases expandPlaceholder_text _ p0 p hpe with ⟨hnone, hqt⟩ | ⟨v, hv, hqt⟩ |
    ⟨items, hitems, hq⟩
  · rw [hqt] at htk
    have hstrip : pyStrip p0.text = p0.text := pyStrip_token p0.text htk
    exact placeholder_lookup_isSome_of_token _ _ _ _ _ _ (pyStrip p0.text)
      (by rw [hstrip]; exact htk) hnone
  · rcases placeholder_lookup_para_inv _ _ _ _ _ _ _ _ hv with hvv | hvv
    · rw [hqt, hvv] at htk
      exact hnotok.1 htk
    · rw [hqt, hvv] at htk
      exact hnotok.2.1 htk
  · rcases hq with hqmem | hqtbd
    · rcases placeholder_lookup_bullets_inv _ _ _ _ _ _ _ _ hitems with
        hit | hit | hit | hit
      · rw [hit] at hqmem
        exact hnotok.2.2 "challenges" (by decide) p.text hqmem htk
      · rw [hit] at hqmem
        exact hnotok.2.2 "improvements" (by decide) p.text hqmem htk
      · rw [hit] at hqmem
        exact hnotok.2.2 "benefits" (by decide) p.text hqmem htk
      · rw [hit] at hqmem
        exact hnotok.2.2 "plan" (by decide) p.text hqmem htk
    · rw [hqtbd] at htk
      exact absurd htk (by decide)

/-- C4 witness: a fully populated, token-free content mapping on a
six-token template leaves no token text in the output. -/
theorem C4_witness :
    ∃ doc', fill_placeholders_in_template
        ⟨[⟨TOK_OVERVIEW, "s"⟩, ⟨TOK_CHALLENGES, "s"⟩, ⟨TOK_IMPROVEMENTS, "s"⟩,
          ⟨TOK_BENEFITS, "s"⟩, ⟨TOK_PLAN, "s"⟩, ⟨TOK_SUMMARY, "s"⟩], []⟩
        [("overview", .vstr "Ov"), ("summary", .vstr "Sm"),
         ("challenges", .vlist [.vstr "c1"]), ("improvements", .vlist [.vstr "i1"]),
         ("benefits", .vlist [.vstr "b1"]), ("plan", .vlist [.vstr "p1"])] = .ok doc' ∧
      ∀ p ∈ iter_all_paragraphs doc', p.text ∉ TOKENS := by
  apply C4_all_tokens_replaced
  · decide
  · exact ⟨"Ov", rfl, by decide⟩
  · exact ⟨"Sm", rfl, by decide⟩
  · intro k hk
    simp only [List.mem_cons, List.not_mem_nil, or_false] at hk
    rcases hk with rfl | rfl | rfl | rfl
    · refine ⟨[.vstr "c1"], rfl, by simp, ?_⟩
      intro x hx
      simp only [List.mem_singleton] at hx
      exact ⟨"c1", hx, by decide⟩
    · refine ⟨[.vstr "i1"], rfl, by simp, ?_⟩
      intro x hx
      simp only [List.mem_singleton] at hx
      exact ⟨"i1", hx, by decide⟩
    · refine ⟨[.vstr "b1"], rfl, by simp, ?_⟩
      intro x hx
      simp only [List.mem_singleton] at hx
      exact ⟨"b1", hx, by decide⟩
    · refine ⟨[.vstr "p1"], rfl, by simp, ?_⟩
      intro x hx
      simp only [List.mem_singleton] at hx
      exact ⟨"p1", hx, by decide⟩
  · exact ⟨by decide, by decide, by decide⟩
